import Mathlib

/-!
# Verification of the golox tree-walking interpreter

Shallow embedding of the golox interpreter (Go).  The repository snapshot
contains several generations of some files; the embedding follows the
generation cited by the claims: the `Evaluate` methods of `expr.go`
(the version using `Type()`, `TypeInstance`, `GetNative`), the matching
`value.go` (the version with `Class`, `Instance`, `LoxFn{name, declaration,
env, isInit}`), the statement executors of `stmt.go`, and the resolver of
`resolver.go` (usage counting).

Modelling decisions, stated once:
* Go `float64` numbers are modelled as `Rat`.  No claim in scope depends on
  floating-point rounding, NaN or signed zero; the arithmetic structure
  (type dispatch, the `r == 0` divisor test) is preserved.
* `strconv.FormatFloat` is modelled by `toString` on `Rat`; the claims only
  depend on *which* operand is stringified, not on the digit sequence.
* Error messages keep the words of the Go messages but drop the single
  quotes Go puts around interpolated names.
* Mutable heap state (environment frames, instance field maps, stdout) is
  passed explicitly as a `State`; frames and instances are addressed by
  index.  Go `map` iteration order is irrelevant to every claim; maps are
  association lists.
* Native functions are outside the embedding: the spec declares
  native-function registration an external collaborator, and no claim
  mentions natives.
* Go panics (`panic("unreachable")`, failed type assertions) are a
  distinguished outcome `Exc.panicked`, never a `RuntimeError`.
* Value equality on functions and classes is reference equality in Go; it
  is modelled structurally here.  No claim exercises `==` on those variants.
-/

namespace GoLox

/-- Go `float64`, modelled as `Rat` (see header). -/
abbrev LoxNum := Rat

/-- Token kinds, from `token.go` (the generation with ternary and break
tokens used by the cited evaluator). Scanner-only kinds are included for
completeness. -/
inductive TokenType where
  | leftParen | rightParen | leftBrace | rightBrace
  | comma | dot | minus | plus | semicolon | slash | star
  | bang | bangEqual | equal | equalEqual
  | greater | greaterEqual | less | lessEqual
  | question | colon
  | identifier | stringLit | numberLit
  | andTok | classTok | elseTok | falseTok | funTok | forTok | ifTok
  | nilTok | orTok | printTok | returnTok | superTok | thisTok | trueTok
  | varTok | whileTok | breakTok | eof
deriving DecidableEq, Repr

/-- `Token` from `token.go`: kind, lexeme, line.  The literal payload is
carried by `LitVal` on literal expressions instead of on the token. -/
structure Token where
  ty : TokenType
  lexeme : String
  line : Nat
deriving DecidableEq, Repr

/-- The `interface{}` payload of `LiteralExpr` (nil, bool, float64, string). -/
inductive LitVal where
  | lnil
  | lbool (b : Bool)
  | lnum (n : LoxNum)
  | lstr (s : String)
deriving DecidableEq, Repr

mutual
/-- Expressions, from `expr.go`.  The resolver side channel (`distance *int`)
is carried inline as a resolved `Int` depth (−1 = global), per the spec's
"resolved AST" alternative. -/
inductive Expr where
  | binary (left : Expr) (operator : Token) (right : Expr)
  | grouping (expression : Expr)
  | literal (value : LitVal)
  | unary (operator : Token) (right : Expr)
  | ternary (cond : Expr) (left : Expr) (right : Expr)
  | varE (name : Token) (distance : Int)
  | assign (name : Token) (value : Expr) (distance : Int)
  | logical (left : Expr) (operator : Token) (right : Expr)
  | call (callee : Expr) (paren : Token) (arguments : List Expr)
  | fnE (parameters : List Token) (body : List Stmt)
  | getE (object : Expr) (name : Token)
  | setE (object : Expr) (name : Token) (value : Expr)
  | thisE (keyword : Token) (distance : Int)

/-- Statements, from `stmt.go`.  `fnS` inlines the `FnExpr` payload of
`FnStmt`.  The class-declaration statement belongs to a later source
generation (4-argument `NewClass` with superclass and metaclass) that is
inconsistent with the cited `value.go`; no claim needs it, and classes enter
programs as values. -/
inductive Stmt where
  | exprS (expression : Expr)
  | printS (expression : Expr)
  | varS (name : Token) (initializer : Option Expr)
  | block (statements : List Stmt)
  | ifS (condition : Expr) (thenBranch : Stmt) (elseBranch : Option Stmt)
  | whileS (condition : Expr) (body : Stmt)
  | breakS
  | fnS (name : Token) (parameters : List Token) (body : List Stmt)
  | returnS (keyword : Token) (value : Option Expr)
end

/-- The declaration payload of a `FnExpr` (parameters and body). -/
structure FnDecl where
  parameters : List Token
  body : List Stmt

/-- `LoxFn` from `value.go`: optional name, declaration, captured
environment (frame address), `isInit` flag. -/
structure LoxFn where
  name : Option String
  declaration : FnDecl
  env : Nat
  isInit : Bool

/-- `Class` from `value.go`: name and method table. -/
structure ClassV where
  name : String
  methods : List (String × LoxFn)

/-- The Lox value type, from `value.go`.  Instances are heap-addressed
(they have mutable field maps); native functions are out of scope (header). -/
inductive Value where
  | nil
  | bool (b : Bool)
  | num (n : LoxNum)
  | str (s : String)
  | fn (f : LoxFn)
  | classV (c : ClassV)
  | inst (addr : Nat)

/-- `Type` from `value.go` (the generation with `TypeFn`, `TypeClass`,
`TypeInstance`). -/
inductive LoxType where
  | typeNil | typeBool | typeNumber | typeString
  | typeFn | typeClass | typeInstance
deriving DecidableEq, Repr

/-- The `Type()` methods of `value.go`.  In the cited code `Class.Type()`
returns `TypeClass` (value.go lines 545–547). -/
def Value.type : Value → LoxType
  | .nil => .typeNil
  | .bool _ => .typeBool
  | .num _ => .typeNumber
  | .str _ => .typeString
  | .fn _ => .typeFn
  | .classV _ => .typeClass
  | .inst _ => .typeInstance

/-- The `Bool()` methods of `value.go`: only nil and false are falsy. -/
def Value.toBool : Value → Bool
  | .nil => false
  | .bool b => b
  | _ => true

/-- The `Number.Float()` accessor; used only after a `Type()` check, like
the Go type assertion `left.(Number)`. -/
def Value.float : Value → LoxNum
  | .num n => n
  | _ => 0

/-- Models `strconv.FormatFloat(v, 'f', -1, 64)` (see header). -/
def numToString (n : LoxNum) : String := toString n

/-- An instance on the heap: class pointer and field map
(`Instance` in `value.go`). -/
structure Inst where
  klass : ClassV
  fields : List (String × Value)

/-- An environment frame: enclosing link and name → cell map.  A cell is
`Option Value`: `none` is a declared-but-uninitialized cell. -/
structure EnvFrame where
  enclosing : Option Nat
  values : List (String × Option Value)

/-- The mutable interpreter state: environment frames and instances
addressed by index, plus the stdout lines printed so far. -/
structure State where
  envs : List EnvFrame
  insts : List Inst
  output : List String

/-- Association-list lookup (Go map read). -/
def getKey {α : Type} : List (String × α) → String → Option α
  | [], _ => none
  | (k, v) :: rest, key => if k = key then some v else getKey rest key

/-- Association-list insert/overwrite (Go map write). -/
def setKey {α : Type} : List (String × α) → String → α → List (String × α)
  | [], key, v => [(key, v)]
  | (k, w) :: rest, key, v =>
      if k = key then (k, v) :: rest else (k, w) :: setKey rest key v

/-- The `String()` display methods of `value.go`; instances need the heap
to read their class name. -/
def Value.displayIn (st : State) : Value → String
  | .nil => "nil"
  | .bool b => if b then "true" else "false"
  | .num n => numToString n
  | .str s => s
  | .fn f =>
      match f.name with
      | some n => "<fn " ++ n ++ ">"
      | none => "<anonymous fn>"
  | .classV c => "<class " ++ c.name ++ ">"
  | .inst a =>
      match st.insts[a]? with
      | some i => "<instance of class " ++ i.klass.name ++ ">"
      | none => "<instance>"

/-- The `Equal` methods of `value.go` (see header for the
reference-equality caveat on functions and classes). -/
def Value.equal : Value → Value → Bool
  | .nil, other => other.type = .typeNil
  | .bool b, .bool c => b = c
  | .bool _, _ => false
  | .num n, .num m => n = m
  | .num _, _ => false
  | .str s, .str t => s = t
  | .str _, _ => false
  | .fn f, .fn g => f.env = g.env && f.isInit = g.isInit && f.name = g.name
  | .fn _, _ => false
  | .classV c, .classV d => c.name = d.name
  | .classV _, _ => false
  | .inst a, .inst b => a = b
  | .inst _, _ => false

/-- `Class.Method`: flat lookup in the method table. -/
def ClassV.method (c : ClassV) (name : String) : Option LoxFn :=
  getKey c.methods name

/-- `Class.Initializer`: the method named "init", if any. -/
def ClassV.initializerFn (c : ClassV) : Option LoxFn :=
  c.method "init"

/-- `Class.Arity`: the initializer's arity, or 0. -/
def ClassV.arity (c : ClassV) : Nat :=
  match c.initializerFn with
  | some i => i.declaration.parameters.length
  | none => 0

/-- The two failure modes of an environment lookup. -/
inductive LookupErr where
  | uninitialized (name : String)
  | undeclared (name : String)
deriving DecidableEq, Repr

/-- Rendering of a lookup failure as a runtime-error message. -/
def LookupErr.message : LookupErr → String
  | .uninitialized n => "uninitialized variable " ++ n
  | .undeclared n => "undeclared variable " ++ n

/-- Non-local outcomes of evaluation (`RuntimeException` in `error.go`):
a runtime error, the break signal, the return signal.  `panicked` models Go
panics (unreachable branches); `fuelOut` is the artifact of the fuel
parameter and occurs in no claim. -/
inductive Exc where
  | rte (msg : String)
  | brk
  | ret (v : Value)
  | panicked (msg : String)
  | fuelOut

def State.setFrame (st : State) (a : Nat) (fr : EnvFrame) : State :=
  { st with envs := st.envs.set a fr }

/-- `NewEnvironment(outer)`: allocate a fresh empty frame; returns its
address. -/
def State.pushFrame (st : State) (parent : Option Nat) : Nat × State :=
  (st.envs.length, { st with envs := st.envs ++ [⟨parent, []⟩] })

/-- Modelled from the spec: `Environment.Declare` — the depth-aware
environment file is absent from the snapshot (only its callers remain).
"declare(name): insert an uninitialized cell in the current frame." -/
def State.declare (st : State) (a : Nat) (name : String) : State :=
  match st.envs[a]? with
  | some fr => st.setFrame a { fr with values := setKey fr.values name none }
  | none => st

/-- Modelled from the spec: `Environment.Define` / `DefineNative` —
"define(name, value): insert/overwrite an initialized cell in the current
frame." -/
def State.define (st : State) (a : Nat) (name : String) (v : Value) : State :=
  match st.envs[a]? with
  | some fr => st.setFrame a { fr with values := setKey fr.values name (some v) }
  | none => st

/-- Modelled from the spec: the ancestor walk — hop `n` frames up the
static chain, stopping at the root if the chain is shorter. -/
def State.hopUp (st : State) : Nat → Nat → Nat
  | a, 0 => a
  | a, n + 1 =>
      match st.envs[a]? with
      | some fr =>
          match fr.enclosing with
          | some p => st.hopUp p n
          | none => a
      | none => a

/-- Walk to the root frame (bounded by the heap size, which bounds any
acyclic chain). -/
def State.rootWalk (st : State) : Nat → Nat → Nat
  | 0, a => a
  | f + 1, a =>
      match st.envs[a]? with
      | some fr =>
          match fr.enclosing with
          | some p => st.rootWalk f p
          | none => a
      | none => a

def State.rootOf (st : State) (a : Nat) : Nat :=
  st.rootWalk st.envs.length a

/-- Modelled from the spec: depth −1 walks to the root frame (global
lookup); depth `n ≥ 0` hops `n` frames up. -/
def State.resolveFrame (st : State) (a : Nat) (depth : Int) : Nat :=
  if depth < 0 then st.rootOf a else st.hopUp a depth.toNat

/-- Modelled from the spec: `Environment.Get(depth, name)` — "return the
cell's value from the frame `depth` hops up; fails with "uninitialized" if
declared-only; fails with "undeclared" if absent." -/
def State.get (st : State) (a : Nat) (depth : Int) (name : String) :
    Except LookupErr Value :=
  match st.envs[st.resolveFrame a depth]? with
  | none => .error (.undeclared name)
  | some fr =>
      match getKey fr.values name with
      | none => .error (.undeclared name)
      | some none => .error (.uninitialized name)
      | some (some v) => .ok v

/-- Modelled from the spec: `Environment.Assign(depth, name, value)` —
"replace the cell in the frame `depth` hops up the static chain; fails if
the cell does not exist there." -/
def State.assign (st : State) (a : Nat) (depth : Int) (name : String)
    (v : Value) : Except LookupErr State :=
  let target := st.resolveFrame a depth
  match st.envs[target]? with
  | none => .error (.undeclared name)
  | some fr =>
      match getKey fr.values name with
      | none => .error (.undeclared name)
      | some _ => .ok (st.setFrame target { fr with values := setKey fr.values name (some v) })

/-- Modelled from the spec: `Environment.GetNative` — an infallible read
used for the interpreter-managed names ("this", "super"); the Go version
would panic on failure, which cannot occur on the paths that use it. -/
def State.getNative (st : State) (a : Nat) (depth : Int) (name : String) :
    Value :=
  match st.get a depth name with
  | .ok v => v
  | .error _ => .nil

/-- `NewInstance(class)`: allocate an instance with an empty field map;
returns its address. -/
def State.allocInstance (st : State) (c : ClassV) : Nat × State :=
  (st.insts.length, { st with insts := st.insts ++ [⟨c, []⟩] })

/-- `Instance.Set`: store the value in the field map. -/
def State.instanceSet (st : State) (a : Nat) (name : String) (v : Value) :
    State :=
  match st.insts[a]? with
  | some i => { st with insts := st.insts.set a { i with fields := setKey i.fields name v } }
  | none => st

/-- `Instance.Bind(method)`: a fresh frame child of the method's closure
defines "this" as the receiver; the returned function shares the
declaration and `isInit` flag but closes over the new frame. -/
def State.bind (st : State) (instAddr : Nat) (m : LoxFn) : LoxFn × State :=
  let (a, st₁) := st.pushFrame (some m.env)
  let st₂ := st₁.define a "this" (.inst instAddr)
  ({ m with env := a }, st₂)

/-- `Instance.Get(name)`: fields first, then a class method returned bound,
else "undefined property". -/
def State.instanceGet (st : State) (a : Nat) (name : String) :
    Except Exc Value × State :=
  match st.insts[a]? with
  | none => (.error (.panicked "invalid instance"), st)
  | some i =>
      match getKey i.fields name with
      | some v => (.ok v, st)
      | none =>
          match i.klass.method name with
          | some m =>
              let (bm, st₁) := st.bind a m
              (.ok (.fn bm), st₁)
          | none => (.error (.rte ("undefined property " ++ name)), st)

/-- Bind the parameter list to the argument list in the callee frame
(the loop at the top of `callLoxFn`; the caller has already checked the
arity, so the lists have equal length on every reachable path). -/
def defineParams (a : Nat) : List Token → List Value → State → State
  | p :: ps, v :: vs, st => defineParams a ps vs (st.define a p.lexeme v)
  | _, _, st => st

/-- The arity of a callable value (`Callable` interface dispatch in
`CallExpr.Evaluate`): `none` means the value is not callable. -/
def Value.callableArity : Value → Option Nat
  | .fn f => some f.declaration.parameters.length
  | .classV c => some c.arity
  | _ => none

/-- View an expression outcome as a statement outcome (`ExprStmt.Execute`
discards the value and returns the exception, if any). -/
def excOf : Except Exc Value × State → Option Exc × State
  | (.ok _, st) => (none, st)
  | (.error e, st) => (some e, st)

mutual
/-- The `Evaluate` methods of `expr.go`, fuel-indexed.  Every recursive
call runs at the decremented fuel; `fuelOut` never occurs in the source and
appears in no claim. -/
def evalExpr : Nat → Expr → Nat → State → Except Exc Value × State
  | 0, _, _, st => (.error .fuelOut, st)
  | fuel + 1, e, envA, st =>
    match e with
    | .binary left op right =>
        match evalExpr fuel left envA st with
        | (.error e₁, st₁) => (.error e₁, st₁)
        | (.ok l, st₁) =>
          match evalExpr fuel right envA st₁ with
          | (.error e₂, st₂) => (.error e₂, st₂)
          | (.ok r, st₂) =>
            match op.ty with
            | .minus | .slash | .star
            | .greater | .greaterEqual | .less | .lessEqual =>
                if l.type ≠ .typeNumber ∨ r.type ≠ .typeNumber then
                  (.error (.rte (op.lexeme ++ " operands must be numbers")), st₂)
                else
                  let ln := l.float
                  let rn := r.float
                  match op.ty with
                  | .minus => (.ok (.num (ln - rn)), st₂)
                  | .slash =>
                      if rn = 0 then (.error (.rte "division by zero"), st₂)
                      else (.ok (.num (ln / rn)), st₂)
                  | .star => (.ok (.num (ln * rn)), st₂)
                  | .greater => (.ok (.bool (decide (rn < ln))), st₂)
                  | .greaterEqual => (.ok (.bool (decide (rn ≤ ln))), st₂)
                  | .less => (.ok (.bool (decide (ln < rn))), st₂)
                  | .lessEqual => (.ok (.bool (decide (ln ≤ rn))), st₂)
                  | _ => (.error (.panicked "unreachable"), st₂)
            | .plus =>
                if l.type = .typeNumber ∧ r.type = .typeNumber then
                  (.ok (.num (l.float + r.float)), st₂)
                else if l.type = .typeString ∨ r.type = .typeString then
                  (.ok (.str (l.displayIn st₂ ++ r.displayIn st₂)), st₂)
                else
                  (.error (.rte "+ operands must be numbers or strings"), st₂)
            | .bangEqual => (.ok (.bool (! l.equal r)), st₂)
            | .equalEqual => (.ok (.bool (l.equal r)), st₂)
            | .comma => (.ok r, st₂)
            | _ => (.error (.panicked "unknown binary operator"), st₂)
    | .grouping inner => evalExpr fuel inner envA st
    | .literal v =>
        match v with
        | .lnil => (.ok .nil, st)
        | .lbool b => (.ok (.bool b), st)
        | .lnum n => (.ok (.num n), st)
        | .lstr s => (.ok (.str s), st)
    | .unary op right =>
        match evalExpr fuel right envA st with
        | (.error e₁, st₁) => (.error e₁, st₁)
        | (.ok r, st₁) =>
          match op.ty with
          | .bang => (.ok (.bool (! r.toBool)), st₁)
          | .minus =>
              if r.type ≠ .typeNumber then
                (.error (.rte "unary - operand must be a number"), st₁)
              else (.ok (.num (- r.float)), st₁)
          | _ => (.error (.panicked "unknown unary operator"), st₁)
    | .ternary c l r =>
        match evalExpr fuel c envA st with
        | (.error e₁, st₁) => (.error e₁, st₁)
        | (.ok cv, st₁) =>
          if cv.toBool then evalExpr fuel l envA st₁
          else evalExpr fuel r envA st₁
    | .varE name dist =>
        match st.get envA dist name.lexeme with
        | .ok v => (.ok v, st)
        | .error le => (.error (.rte le.message), st)
    | .assign name valueE dist =>
        match evalExpr fuel valueE envA st with
        | (.error e₁, st₁) => (.error e₁, st₁)
        | (.ok v, st₁) =>
          match st₁.assign envA dist name.lexeme v with
          | .ok st₂ => (.ok v, st₂)
          | .error le => (.error (.rte le.message), st₁)
    | .logical left op right =>
        match evalExpr fuel left envA st with
        | (.error e₁, st₁) => (.error e₁, st₁)
        | (.ok l, st₁) =>
          match op.ty with
          | .andTok =>
              if l.toBool then evalExpr fuel right envA st₁ else (.ok l, st₁)
          | .orTok =>
              if l.toBool then (.ok l, st₁) else evalExpr fuel right envA st₁
          | _ => (.error (.panicked "unknown logical operator"), st₁)
    | .call callee _paren args =>
        match evalExpr fuel callee envA st with
        | (.error e₁, st₁) => (.error e₁, st₁)
        | (.ok cv, st₁) =>
          match evalArgs fuel args envA st₁ with
          | (.error e₂, st₂) => (.error e₂, st₂)
          | (.ok argVals, st₂) =>
            match cv.callableArity with
            | none => (.error (.rte "value is not callable"), st₂)
            | some arity =>
              if arity ≠ argVals.length then
                (.error (.rte ("expected " ++ toString arity ++
                  " arguments but got " ++ toString argVals.length)), st₂)
              else
                match cv with
                | .fn f => callLoxFn fuel f argVals st₂
                | .classV c => newInstance fuel c argVals st₂
                | _ => (.error (.panicked "unreachable"), st₂)
    | .fnE params body =>
        (.ok (.fn ⟨none, ⟨params, body⟩, envA, false⟩), st)
    | .getE objE name =>
        match evalExpr fuel objE envA st with
        | (.error e₁, st₁) => (.error e₁, st₁)
        | (.ok o, st₁) =>
          if o.type ≠ .typeInstance then
            (.error (.rte "only instances have properties"), st₁)
          else
            match o with
            | .inst a => st₁.instanceGet a name.lexeme
            | _ => (.error (.panicked "type assertion"), st₁)
    | .setE objE name valueE =>
        match evalExpr fuel objE envA st with
        | (.error e₁, st₁) => (.error e₁, st₁)
        | (.ok o, st₁) =>
          if o.type ≠ .typeInstance then
            (.error (.rte "only instances have properties"), st₁)
          else
            match evalExpr fuel valueE envA st₁ with
            | (.error e₂, st₂) => (.error e₂, st₂)
            | (.ok v, st₂) =>
              match o with
              | .inst a => (.ok v, st₂.instanceSet a name.lexeme v)
              | _ => (.error (.panicked "type assertion"), st₂)
    | .thisE keyword dist =>
        match st.get envA dist keyword.lexeme with
        | .ok v => (.ok v, st)
        | .error le => (.error (.rte le.message), st)
termination_by structural fuel => fuel

/-- The argument-evaluation loop of `CallExpr.Evaluate` (left to right,
stopping at the first exception). -/
def evalArgs : Nat → List Expr → Nat → State → Except Exc (List Value) × State
  | 0, _, _, st => (.error .fuelOut, st)
  | _ + 1, [], _, st => (.ok [], st)
  | fuel + 1, a :: rest, envA, st =>
    match evalExpr fuel a envA st with
    | (.error e₁, st₁) => (.error e₁, st₁)
    | (.ok v, st₁) =>
      match evalArgs fuel rest envA st₁ with
      | (.error e₂, st₂) => (.error e₂, st₂)
      | (.ok vs, st₂) => (.ok (v :: vs), st₂)
termination_by structural fuel => fuel

/-- The `Execute` methods of `stmt.go`, fuel-indexed. -/
def execStmt : Nat → Stmt → Nat → State → Option Exc × State
  | 0, _, _, st => (some .fuelOut, st)
  | fuel + 1, s, envA, st =>
    match s with
    | .exprS e => excOf (evalExpr fuel e envA st)
    | .printS e =>
        match evalExpr fuel e envA st with
        | (.error e₁, st₁) => (some e₁, st₁)
        | (.ok v, st₁) =>
            (none, { st₁ with output := st₁.output ++ [v.displayIn st₁] })
    | .varS name initializer =>
        match initializer with
        | none => (none, st.declare envA name.lexeme)
        | some ie =>
          match evalExpr fuel ie envA st with
          | (.error e₁, st₁) => (some e₁, st₁)
          | (.ok v, st₁) => (none, st₁.define envA name.lexeme v)
    | .block stmts =>
        let (a, st₁) := st.pushFrame (some envA)
        execStmts fuel stmts a st₁
    | .ifS c t e? =>
        match evalExpr fuel c envA st with
        | (.error e₁, st₁) => (some e₁, st₁)
        | (.ok v, st₁) =>
          if v.toBool then execStmt fuel t envA st₁
          else
            match e? with
            | some e => execStmt fuel e envA st₁
            | none => (none, st₁)
    | .whileS c b =>
        match evalExpr fuel c envA st with
        | (.error e₁, st₁) => (some e₁, st₁)
        | (.ok v, st₁) =>
          if ! v.toBool then (none, st₁)
          else
            match execStmt fuel b envA st₁ with
            | (some .brk, st₂) => (none, st₂)
            | (some e, st₂) => (some e, st₂)
            | (none, st₂) => execStmt fuel (.whileS c b) envA st₂
    | .breakS => (some .brk, st)
    | .fnS name params body =>
        (none, st.define envA name.lexeme
          (.fn ⟨some name.lexeme, ⟨params, body⟩, envA, false⟩))
    | .returnS _kw value =>
        match value with
        | none => (some (.ret .nil), st)
        | some ve =>
          match evalExpr fuel ve envA st with
          | (.error e₁, st₁) => (some e₁, st₁)
          | (.ok v, st₁) => (some (.ret v), st₁)
termination_by structural fuel => fuel

/-- The statement loop shared by `BlockStmt.Execute` and the body loop of
`callLoxFn`: run statements in order, stopping at the first exception. -/
def execStmts : Nat → List Stmt → Nat → State → Option Exc × State
  | 0, _, _, st => (some .fuelOut, st)
  | _ + 1, [], _, st => (none, st)
  | fuel + 1, s :: rest, envA, st =>
    match execStmt fuel s envA st with
    | (none, st₁) => execStmts fuel rest envA st₁
    | (some e, st₁) => (some e, st₁)
termination_by structural fuel => fuel

/-- `CallExpr.callLoxFn` (expr.go lines 324–353): fresh frame child of the
closure, bind parameters, run the body; a `Return` signal yields its value,
any other exception propagates; then, if the function is an initializer,
the result is replaced by "this" read at depth 0 of the *closure*
environment. -/
def callLoxFn : Nat → LoxFn → List Value → State → Except Exc Value × State
  | 0, _, _, st => (.error .fuelOut, st)
  | fuel + 1, f, args, st =>
    let (calleeEnv, st₁) := st.pushFrame (some f.env)
    let st₂ := defineParams calleeEnv f.declaration.parameters args st₁
    match execStmts fuel f.declaration.body calleeEnv st₂ with
    | (some (.ret v), st₃) =>
        if f.isInit then (.ok (st₃.getNative f.env 0 "this"), st₃)
        else (.ok v, st₃)
    | (some e, st₃) => (.error e, st₃)
    | (none, st₃) =>
        if f.isInit then (.ok (st₃.getNative f.env 0 "this"), st₃)
        else (.ok .nil, st₃)
termination_by structural fuel => fuel

/-- `CallExpr.newInstance` (expr.go lines 355–362): allocate the instance;
if the class has an initializer, bind it to the instance and invoke it,
else return the instance. -/
def newInstance : Nat → ClassV → List Value → State → Except Exc Value × State
  | 0, _, _, st => (.error .fuelOut, st)
  | fuel + 1, c, args, st =>
    let (iAddr, st₁) := st.allocInstance c
    match c.initializerFn with
    | some init =>
        let (bound, st₂) := st₁.bind iAddr init
        callLoxFn fuel bound args st₂
    | none => (.ok (.inst iAddr), st₁)
termination_by structural fuel => fuel
end

/-! ## Resolver (`resolver.go` / the `Resolve` methods of `expr.go` and
`stmt.go`)

The resolver tracks a stack of scopes mapping names to
`{token, usages, defined}`.  The innermost scope is the list head here
(Go keeps it at the slice end).  The depth annotations the Go resolver
writes into the AST's `distance` cells are a side channel not needed by
any claim and are discarded. -/

/-- `FunctionType` from the resolver. -/
inductive FunctionType where
  | fnNone | fnFunction | fnMethod | fnInitializer
deriving DecidableEq, Repr

/-- `localVar`: declaration token (`none` for interpreter-managed names,
which are created with one usage), usage count, defined flag. -/
structure LocalVar where
  tok : Option Token
  usages : Nat
  defined : Bool

abbrev Scope := List (String × LocalVar)

structure Resolver where
  scopes : List Scope
  errors : List String
  currentFunction : FunctionType

/-- `NewResolver`: one synthetic global scope, no errors. -/
def newResolver : Resolver := ⟨[[]], [], .fnNone⟩

def Resolver.addError (r : Resolver) (msg : String) : Resolver :=
  { r with errors := r.errors ++ [msg] }

def Resolver.beginScope (r : Resolver) : Resolver :=
  { r with scopes := [] :: r.scopes }

/-- Does a name begin with an underscore?  (`name[0] != '_'` in Go;
identifiers are never empty.) -/
def underscored (name : String) : Bool :=
  name.data.head? = some '_'

/-- The unused-local errors `EndScope` reports for one scope: every entry
with zero usages whose name does not begin with an underscore. -/
def unusedErrors (sc : Scope) : List String :=
  sc.filterMap fun p =>
    if p.2.usages = 0 ∧ ¬ underscored p.1 then
      some (p.1 ++ " declared but not used")
    else none

/-- `Resolver.EndScope` (resolver.go lines 72–80): report the unused
locals of the innermost scope, then pop it.  (An empty stack cannot occur:
`EndScope` always matches a `BeginScope`.) -/
def Resolver.endScope (r : Resolver) : Resolver :=
  match r.scopes with
  | [] => r
  | top :: rest => { r with scopes := rest, errors := r.errors ++ unusedErrors top }

/-- Overwrite a name in the innermost scope. -/
def Resolver.currentScopeSet (r : Resolver) (name : String) (v : LocalVar) :
    Resolver :=
  match r.scopes with
  | [] => r
  | top :: rest => { r with scopes := setKey top name v :: rest }

/-- `Resolver.Declare`: duplicate declaration in the same scope is an
error; the entry is then (re)created with zero usages, undefined. -/
def Resolver.declareR (r : Resolver) (name : Token) : Resolver :=
  let r₁ :=
    match r.scopes with
    | [] => r
    | top :: _ =>
        if (getKey top name.lexeme).isSome then
          r.addError (name.lexeme ++ " already declared in this scope")
        else r
  r₁.currentScopeSet name.lexeme ⟨some name, 0, false⟩

/-- `Resolver.Define`: flip the defined flag (Go panics if the name was
not declared; that path is unreachable). -/
def Resolver.defineR (r : Resolver) (name : Token) : Resolver :=
  match r.scopes with
  | [] => r
  | top :: rest =>
      match getKey top name.lexeme with
      | some v => { r with scopes := setKey top name.lexeme { v with defined := true } :: rest }
      | none => r

/-- `Resolver.DeclareAndDefineNative`: an interpreter-managed name,
created defined and with one usage (suppressing the unused check). -/
def Resolver.declareAndDefineNative (r : Resolver) (name : String) : Resolver :=
  r.currentScopeSet name ⟨none, 1, true⟩

/-- `Resolver.IsDefined`: in the innermost scope, absent or defined. -/
def Resolver.isDefined (r : Resolver) (name : Token) : Bool :=
  match r.scopes with
  | [] => true
  | top :: _ =>
      match getKey top name.lexeme with
      | some v => v.defined
      | none => true

/-- The scope walk of `ResolveLocal`: find the innermost scope holding the
name, increment its usage count there, and report the 0-based depth. -/
def resolveLocalAux (name : String) : List Scope → Option (List Scope × Nat)
  | [] => none
  | sc :: rest =>
      match getKey sc name with
      | some v => some (setKey sc name { v with usages := v.usages + 1 } :: rest, 0)
      | none =>
          match resolveLocalAux name rest with
          | some (rest₁, i) => some (sc :: rest₁, i + 1)
          | none => none

/-- `Resolver.ResolveLocal`: depth where found (usages incremented), or −1. -/
def Resolver.resolveLocal (r : Resolver) (name : Token) : Resolver × Int :=
  match resolveLocalAux name.lexeme r.scopes with
  | some (scopes₁, i) => ({ r with scopes := scopes₁ }, (i : Int))
  | none => (r, -1)

/-- The parameter loop of `ResolveFunction`: declare and define each. -/
def declareParams : List Token → Resolver → Resolver
  | [], r => r
  | p :: ps, r => declareParams ps ((r.declareR p).defineR p)

mutual
/-- The `Resolve` methods of `expr.go`. -/
def resolveExpr : Expr → Resolver → Resolver
  | .binary l _ rr, r => resolveExpr rr (resolveExpr l r)
  | .grouping inner, r => resolveExpr inner r
  | .literal _, r => r
  | .unary _ rr, r => resolveExpr rr r
  | .ternary c l rr, r => resolveExpr rr (resolveExpr l (resolveExpr c r))
  | .varE name _, r =>
      let r₁ :=
        if ! r.isDefined name then
          r.addError ("cannot refer to " ++ name.lexeme ++ " in its own initializer")
        else r
      (r₁.resolveLocal name).1
  | .assign name value _, r => ((resolveExpr value r).resolveLocal name).1
  | .logical l _ rr, r => resolveExpr rr (resolveExpr l r)
  | .call callee _ args, r => resolveExprs args (resolveExpr callee r)
  | .fnE params body, r => resolveFunction params body .fnFunction r
  | .getE obj _, r => resolveExpr obj r
  | .setE obj _ value, r => resolveExpr obj (resolveExpr value r)
  | .thisE keyword _, r =>
      let ty := r.currentFunction
      let r₁ :=
        if ty ≠ .fnMethod ∧ ty ≠ .fnInitializer then
          r.addError "cannot use this outside method"
        else r
      (r₁.resolveLocal keyword).1

def resolveExprs : List Expr → Resolver → Resolver
  | [], r => r
  | e :: rest, r => resolveExprs rest (resolveExpr e r)

/-- The `Resolve` methods of `stmt.go`. -/
def resolveStmt : Stmt → Resolver → Resolver
  | .exprS e, r => resolveExpr e r
  | .printS e, r => resolveExpr e r
  | .varS name initializer, r =>
      let r₁ := r.declareR name
      let r₂ :=
        match initializer with
        | some ie => resolveExpr ie r₁
        | none => r₁
      r₂.defineR name
  | .block stmts, r => (resolveStmts stmts r.beginScope).endScope
  | .ifS c t e?, r =>
      let r₁ := resolveStmt t (resolveExpr c r)
      match e? with
      | some e => resolveStmt e r₁
      | none => r₁
  | .whileS c b, r => resolveStmt b (resolveExpr c r)
  | .breakS, r => r
  | .fnS name params body, r =>
      resolveFunction params body .fnFunction ((r.declareR name).defineR name)
  | .returnS _ value, r =>
      let ty := r.currentFunction
      let r₁ :=
        if ty = .fnNone then r.addError "cannot return outside function"
        else if ty = .fnInitializer ∧ value.isSome then
          r.addError "cannot return value from initializer"
        else r
      match value with
      | some ve => resolveExpr ve r₁
      | none => r₁

/-- `ResolveStatements` / the body loop of `ResolveFunction`. -/
def resolveStmts : List Stmt → Resolver → Resolver
  | [], r => r
  | s :: rest, r => resolveStmts rest (resolveStmt s r)

/-- `Resolver.ResolveFunction`: save and set the function context, push a
scope, bind the parameters, resolve the body, pop the scope, restore the
context. -/
def resolveFunction (params : List Token) (body : List Stmt)
    (ty : FunctionType) (r : Resolver) : Resolver :=
  let old := r.currentFunction
  let r₁ := declareParams params { r with currentFunction := ty }.beginScope
  let r₂ := (resolveStmts body r₁).endScope
  { r₂ with currentFunction := old }
end

/-! ## Concrete inputs used by the witnesses -/

/-- A token on line 1. -/
def wTok (ty : TokenType) (lx : String) : Token := ⟨ty, lx, 1⟩

/-- A state with a single (global) frame, no instances, no output. -/
def wBase : State := ⟨[⟨none, []⟩], [], []⟩

/-- An initializer with an empty body (falls off the end), closing over
frame 0. -/
def wFooInit : LoxFn := ⟨some "init", ⟨[], []⟩, 0, true⟩

/-- An initializer whose body is a bare `return;`. -/
def wBarInit : LoxFn := ⟨some "init", ⟨[], [.returnS (wTok .returnTok "return") none]⟩, 0, true⟩

/-- A class whose only method is `init` (the fall-off-the-end one). -/
def wFooClass : ClassV := ⟨"Foo", [("init", wFooInit)]⟩

/-- A class whose `init` executes an explicit bare `return`. -/
def wBarClass : ClassV := ⟨"Bar", [("init", wBarInit)]⟩

/-- The allocation of a `wFooClass` instance in `wBase` (address 0). -/
def wAlloc : Nat × State := wBase.allocInstance wFooClass

/-- `wFooInit` bound to that instance (`Instance.Bind`). -/
def wBound : LoxFn × State := wAlloc.2.bind wAlloc.1 wFooInit

/-- A state whose global frame binds "Foo" to the class value (address 0):
the receiver for the C2 counterexample. -/
def wC2State : State := ⟨[⟨none, [("Foo", some (.classV wFooClass))]⟩], [], []⟩

/-! ## Helper lemmas -/

theorem getKey_setKey {α : Type} (l : List (String × α)) (k : String) (v : α) :
    getKey (setKey l k v) k = some v := by
  induction l with
  | nil => simp [setKey, getKey]
  | cons hd t ih =>
      by_cases hk : hd.1 = k <;> simp [setKey, getKey, hk, ih]

theorem setKey_length_of_mem {α : Type} (l : List (String × α)) (k : String) (v : α)
    (h : (getKey l k).isSome) : (setKey l k v).length = l.length := by
  induction l with
  | nil => simp [getKey] at h
  | cons hd t ih =>
      by_cases hk : hd.1 = k
      · simp [setKey, hk]
      · simp [getKey, hk] at h
        simp [setKey, hk, ih h]

theorem currentScopeSet_scopes_length (r : Resolver) (n : String) (v : LocalVar) :
    (r.currentScopeSet n v).scopes.length = r.scopes.length := by
  unfold Resolver.currentScopeSet
  cases h : r.scopes <;> simp [h]

theorem declareR_scopes_length (r : Resolver) (name : Token) :
    (r.declareR name).scopes.length = r.scopes.length := by
  unfold Resolver.declareR
  rw [currentScopeSet_scopes_length]
  cases h : r.scopes with
  | nil => simp [h]
  | cons top rest =>
      by_cases hk : (getKey top name.lexeme).isSome <;> simp [hk, Resolver.addError, h]

theorem defineR_scopes_length (r : Resolver) (name : Token) :
    (r.defineR name).scopes.length = r.scopes.length := by
  unfold Resolver.defineR
  cases h : r.scopes with
  | nil => simp [h]
  | cons top rest => cases hk : getKey top name.lexeme <;> simp [h, hk]

theorem endScope_scopes_length (r : Resolver) :
    (r.endScope).scopes.length = r.scopes.length - 1 := by
  unfold Resolver.endScope
  cases h : r.scopes <;> simp [h]

theorem resolveLocalAux_length (name : String) :
    ∀ (l l₁ : List Scope) (i : Nat),
      resolveLocalAux name l = some (l₁, i) → l₁.length = l.length := by
  intro l
  induction l with
  | nil => intro l₁ i h; simp [resolveLocalAux] at h
  | cons sc rest ih =>
      intro l₁ i h
      unfold resolveLocalAux at h
      cases hk : getKey sc name with
      | some v =>
          simp only [hk, Option.some.injEq, Prod.mk.injEq] at h
          obtain ⟨h1, h2⟩ := h
          subst h1
          have hs : (getKey sc name).isSome := by simp [hk]
          simp [setKey_length_of_mem sc name _ hs]
      | none =>
          simp only [hk] at h
          cases hr : resolveLocalAux name rest with
          | none => rw [hr] at h; simp at h
          | some p =>
              obtain ⟨rest₁, j⟩ := p
              rw [hr] at h
              simp only [Option.some.injEq, Prod.mk.injEq] at h
              obtain ⟨h1, h2⟩ := h
              subst h1
              simp [ih rest₁ j hr]

theorem resolveLocal_scopes_length (r : Resolver) (name : Token) :
    (r.resolveLocal name).1.scopes.length = r.scopes.length := by
  unfold Resolver.resolveLocal
  cases h : resolveLocalAux name.lexeme r.scopes with
  | none => simp
  | some p =>
      obtain ⟨l₁, i⟩ := p
      simpa using resolveLocalAux_length name.lexeme r.scopes l₁ i h

theorem declareParams_scopes_length (ps : List Token) (r : Resolver) :
    (declareParams ps r).scopes.length = r.scopes.length := by
  induction ps generalizing r with
  | nil => simp [declareParams]
  | cons p rest ih =>
      simp [declareParams, ih, defineR_scopes_length, declareR_scopes_length]

mutual
theorem resolveExpr_scopes_length : ∀ (e : Expr) (r : Resolver),
    (resolveExpr e r).scopes.length = r.scopes.length
  | .binary l _ rr, r => by
      simp only [resolveExpr]
      rw [resolveExpr_scopes_length rr, resolveExpr_scopes_length l]
  | .grouping inner, r => by
      simp only [resolveExpr]; rw [resolveExpr_scopes_length inner]
  | .literal _, r => by simp only [resolveExpr]
  | .unary _ rr, r => by
      simp only [resolveExpr]; rw [resolveExpr_scopes_length rr]
  | .ternary c l rr, r => by
      simp only [resolveExpr]
      rw [resolveExpr_scopes_length rr, resolveExpr_scopes_length l,
        resolveExpr_scopes_length c]
  | .varE name _, r => by
      simp only [resolveExpr]
      rw [resolveLocal_scopes_length]
      split <;> simp [Resolver.addError]
  | .assign name value _, r => by
      simp only [resolveExpr]
      rw [resolveLocal_scopes_length, resolveExpr_scopes_length value]
  | .logical l _ rr, r => by
      simp only [resolveExpr]
      rw [resolveExpr_scopes_length rr, resolveExpr_scopes_length l]
  | .call callee _ args, r => by
      simp only [resolveExpr]
      rw [resolveExprs_scopes_length args, resolveExpr_scopes_length callee]
  | .fnE params body, r => by
      simp only [resolveExpr]
      rw [resolveFunction_scopes_length params body .fnFunction r]
  | .getE obj _, r => by
      simp only [resolveExpr]; rw [resolveExpr_scopes_length obj]
  | .setE obj _ value, r => by
      simp only [resolveExpr]
      rw [resolveExpr_scopes_length obj, resolveExpr_scopes_length value]
  | .thisE keyword _, r => by
      simp only [resolveExpr]
      rw [resolveLocal_scopes_length]
      split <;> simp [Resolver.addError]

theorem resolveExprs_scopes_length : ∀ (es : List Expr) (r : Resolver),
    (resolveExprs es r).scopes.length = r.scopes.length
  | [], r => by simp only [resolveExprs]
  | e :: rest, r => by
      simp only [resolveExprs]
      rw [resolveExprs_scopes_length rest, resolveExpr_scopes_length e]

theorem resolveStmt_scopes_length : ∀ (s : Stmt) (r : Resolver),
    (resolveStmt s r).scopes.length = r.scopes.length
  | .exprS e, r => by simp only [resolveStmt]; rw [resolveExpr_scopes_length e]
  | .printS e, r => by simp only [resolveStmt]; rw [resolveExpr_scopes_length e]
  | .varS name initializer, r => by
      cases initializer with
      | some ie =>
          simp only [resolveStmt]
          rw [defineR_scopes_length, resolveExpr_scopes_length ie, declareR_scopes_length]
      | none =>
          simp only [resolveStmt]
          rw [defineR_scopes_length, declareR_scopes_length]
  | .block stmts, r => by
      simp only [resolveStmt]
      rw [endScope_scopes_length, resolveStmts_scopes_length stmts]
      simp [Resolver.beginScope]
  | .ifS c t e?, r => by
      cases e? with
      | some e =>
          simp only [resolveStmt]
          rw [resolveStmt_scopes_length e, resolveStmt_scopes_length t,
            resolveExpr_scopes_length c]
      | none =>
          simp only [resolveStmt]
          rw [resolveStmt_scopes_length t, resolveExpr_scopes_length c]
  | .whileS c b, r => by
      simp only [resolveStmt]
      rw [resolveStmt_scopes_length b, resolveExpr_scopes_length c]
  | .breakS, r => by simp only [resolveStmt]
  | .fnS name params body, r => by
      simp only [resolveStmt]
      rw [resolveFunction_scopes_length, defineR_scopes_length, declareR_scopes_length]
  | .returnS _ value, r => by
      cases value with
      | some ve =>
          simp only [resolveStmt]
          rw [resolveExpr_scopes_length ve]
          split <;> try split
          all_goals simp [Resolver.addError]
      | none =>
          simp only [resolveStmt]
          split <;> try split
          all_goals simp [Resolver.addError]

theorem resolveStmts_scopes_length : ∀ (l : List Stmt) (r : Resolver),
    (resolveStmts l r).scopes.length = r.scopes.length
  | [], r => by simp only [resolveStmts]
  | s :: rest, r => by
      simp only [resolveStmts]
      rw [resolveStmts_scopes_length rest, resolveStmt_scopes_length s]

theorem resolveFunction_scopes_length : ∀ (params : List Token) (body : List Stmt)
    (ty : FunctionType) (r : Resolver),
    (resolveFunction params body ty r).scopes.length = r.scopes.length
  | params, body, ty, r => by
      simp only [resolveFunction]
      rw [endScope_scopes_length, resolveStmts_scopes_length body,
        declareParams_scopes_length]
      simp [Resolver.beginScope]
end

/-! ## Claims -/

/-- C1: an initializer call bound to a receiver returns the receiver.
(1) `Instance.Bind` produces a function with the same `isInit` flag whose
fresh closure frame maps "this" to the receiver instance;
(2) whenever `callLoxFn` on an `isInit` function succeeds — whether the
body raised a `Return` or fell off the end — the result is "this" read at
depth 0 of the function's closure environment;
(3) constructing `C(...)` for a class with an initializer is exactly
`callLoxFn` of the initializer bound to the freshly allocated instance. -/
theorem c1_initializer_returns_receiver :
    (∀ (st : State) (i : Nat) (m : LoxFn),
      ((st.bind i m).1).isInit = m.isInit ∧
      ((st.bind i m).1).env = st.envs.length ∧
      ((st.bind i m).2).envs[st.envs.length]? =
        some ⟨some m.env, [("this", some (.inst i))]⟩) ∧
    (∀ (f : Nat) (fn : LoxFn) (args : List Value) (st st' : State) (v : Value),
      fn.isInit = true →
      callLoxFn (f + 1) fn args st = (.ok v, st') →
      v = st'.getNative fn.env 0 "this") ∧
    (∀ (f : Nat) (c : ClassV) (args : List Value) (st : State) (init : LoxFn),
      c.initializerFn = some init →
      newInstance (f + 1) c args st =
        callLoxFn f ((st.allocInstance c).2.bind (st.allocInstance c).1 init).1 args
          ((st.allocInstance c).2.bind (st.allocInstance c).1 init).2) := by
  refine ⟨?_, ?_, ?_⟩
  · intro st i m
    refine ⟨rfl, rfl, ?_⟩
    simp [State.bind, State.pushFrame, State.define, State.setFrame, setKey]
  · intro f fn args st st' v hInit h
    rw [callLoxFn] at h
    simp only [State.pushFrame, hInit, if_true] at h
    cases hE : execStmts f fn.declaration.body st.envs.length
        (defineParams st.envs.length fn.declaration.parameters args
          { st with envs := st.envs ++ [⟨some fn.env, []⟩] }) with
    | mk r st₃ =>
        rw [hE] at h
        cases r with
        | none => simp at h; exact h.2 ▸ h.1.symm
        | some e =>
            cases e with
            | ret rv => simp at h; exact h.2 ▸ h.1.symm
            | rte m => simp at h
            | brk => simp at h
            | panicked m => simp at h
            | fuelOut => simp at h
  · intro f c args st init hinit
    simp [newInstance, State.allocInstance, hinit]

/-- C1 witness: a bound fall-off-the-end initializer yields the receiver
(instance 0), and constructing a class whose `init` executes a bare
`return` delegates to the bound initializer call. -/
theorem c1_witness :
    wBound.1.isInit = true ∧
    (Value.inst 0) = ((callLoxFn 2 wBound.1 [] wBound.2).2).getNative wBound.1.env 0 "this" ∧
    newInstance 3 wBarClass [] wBase =
      callLoxFn 2 ((wBase.allocInstance wBarClass).2.bind
          (wBase.allocInstance wBarClass).1 wBarInit).1 []
        ((wBase.allocInstance wBarClass).2.bind (wBase.allocInstance wBarClass).1 wBarInit).2 :=
  ⟨rfl,
   c1_initializer_returns_receiver.2.1 1 wBound.1 [] wBound.2
     (callLoxFn 2 wBound.1 [] wBound.2).2 (.inst 0) rfl rfl,
   c1_initializer_returns_receiver.2.2 2 wBarClass [] wBase wBarInit rfl⟩

/-- C2, counterexample: in the cited code a `Get` whose receiver evaluates
to a Class value fails with the runtime error "only instances have
properties" — it is not routed through any meta-class, because
`Class.Type()` returns `TypeClass`, not `TypeInstance`. -/
theorem c2_counterexample :
    evalExpr 3 (.getE (.varE (wTok .identifier "Foo") 0) (wTok .identifier "init")) 0 wC2State =
      (.error (.rte "only instances have properties"), wC2State) := by
  rfl

/-- C2, amended: evaluating a `Get` accepts only receivers of type
Instance; any receiver whose `Type()` is not `TypeInstance` — in
particular every Class value, whose `Type()` is `TypeClass` — produces the
runtime error "only instances have properties"; an Instance receiver
proceeds to `Instance.Get`. -/
theorem c2_get_requires_instance : ∀ (f : Nat) (obj : Expr) (name : Token) (envA : Nat)
    (st st₁ : State) (o : Value),
    evalExpr f obj envA st = (.ok o, st₁) →
    (o.type ≠ .typeInstance →
      evalExpr (f + 1) (.getE obj name) envA st =
        (.error (.rte "only instances have properties"), st₁)) ∧
    (∀ c, o = .classV c →
      evalExpr (f + 1) (.getE obj name) envA st =
        (.error (.rte "only instances have properties"), st₁)) ∧
    (∀ a, o = .inst a →
      evalExpr (f + 1) (.getE obj name) envA st = st₁.instanceGet a name.lexeme) := by
  intro f obj name envA st st₁ o hO
  refine ⟨?_, ?_, ?_⟩
  · intro ht
    simp [evalExpr, hO, ht]
  · intro c hc
    subst hc
    simp [evalExpr, hO, Value.type]
  · intro a ha
    subst ha
    simp [evalExpr, hO, Value.type]

/-- C2 witness: the amended theorem applied to a concrete class receiver. -/
theorem c2_witness :
    evalExpr 2 (.getE (.varE (wTok .identifier "Foo") 0) (wTok .identifier "init")) 0
      wC2State = (.error (.rte "only instances have properties"), wC2State) :=
  (c2_get_requires_instance 1 (.varE (wTok .identifier "Foo") 0) (wTok .identifier "init") 0
    wC2State wC2State (.classV wFooClass) rfl).2.1 wFooClass rfl

/-- C3: an environment lookup at the resolved depth distinguishes the two
failure modes: a cell that is present but uninitialized yields the
"uninitialized" error, an absent cell yields the "undeclared" error (and a
present initialized cell yields its value); a `var` statement without an
initializer declares exactly such an uninitialized cell in the current
frame. -/
theorem c3_env_lookup_distinguishes :
    (∀ (st : State) (a : Nat) (d : Int) (name : String) (fr : EnvFrame),
      st.envs[st.resolveFrame a d]? = some fr →
      (getKey fr.values name = some none → st.get a d name = .error (.uninitialized name)) ∧
      (getKey fr.values name = none → st.get a d name = .error (.undeclared name)) ∧
      (∀ v, getKey fr.values name = some (some v) → st.get a d name = .ok v)) ∧
    (∀ (f : Nat) (name : Token) (envA : Nat) (st : State),
      execStmt (f + 1) (.varS name none) envA st = (none, st.declare envA name.lexeme)) ∧
    (∀ (st : State) (a : Nat) (n : String) (fr : EnvFrame),
      st.envs[a]? = some fr →
      ∃ fr', (st.declare a n).envs[a]? = some fr' ∧ getKey fr'.values n = some none) := by
  refine ⟨?_, ?_, ?_⟩
  · intro st a d name fr hfr
    refine ⟨?_, ?_, ?_⟩ <;> [skip; skip; intro v] <;> intro hk <;>
      simp [State.get, hfr, hk]
  · intro f name envA st
    simp [execStmt]
  · intro st a n fr hfr
    refine ⟨{ fr with values := setKey fr.values n none }, ?_, ?_⟩
    · have ha : a < st.envs.length := by
        by_contra hge
        rw [List.getElem?_eq_none (by omega)] at hfr
        exact Option.noConfusion hfr
      simp [State.declare, hfr, State.setFrame, List.getElem?_set_self, ha]
    · exact getKey_setKey fr.values n none

/-- C3 witness: a frame with the uninitialized cell "x": reading "x" fails
uninitialized, reading "y" fails undeclared; an initializer-less `var x;`
performs exactly the declaration. -/
theorem c3_witness :
    (State.get ⟨[⟨none, [("x", none)]⟩], [], []⟩ 0 0 "x" = .error (.uninitialized "x")) ∧
    (State.get ⟨[⟨none, [("x", none)]⟩], [], []⟩ 0 0 "y" = .error (.undeclared "y")) ∧
    execStmt 1 (.varS (wTok .identifier "x") none) 0 wBase =
      (none, wBase.declare 0 "x") :=
  ⟨(c3_env_lookup_distinguishes.1 ⟨[⟨none, [("x", none)]⟩], [], []⟩ 0 0 "x"
      ⟨none, [("x", none)]⟩ rfl).1 rfl,
   (c3_env_lookup_distinguishes.1 ⟨[⟨none, [("x", none)]⟩], [], []⟩ 0 0 "y"
      ⟨none, [("x", none)]⟩ rfl).2.1 rfl,
   c3_env_lookup_distinguishes.2.1 0 (wTok .identifier "x") 0 wBase⟩

/-- C4: Binary `+` on evaluated operand values: two Numbers sum; otherwise
if at least one operand is a String the result is the concatenation of
both operands' display strings; otherwise the runtime error
"+ operands must be numbers or strings" with no value. -/
theorem c4_plus_semantics : ∀ (f : Nat) (l r : Expr) (op : Token) (envA : Nat)
    (st st₁ st₂ : State) (lv rv : Value),
    op.ty = .plus →
    evalExpr f l envA st = (.ok lv, st₁) →
    evalExpr f r envA st₁ = (.ok rv, st₂) →
    (∀ a b, lv = .num a → rv = .num b →
      evalExpr (f + 1) (.binary l op r) envA st = (.ok (.num (a + b)), st₂)) ∧
    (lv.type = .typeString ∨ rv.type = .typeString →
      evalExpr (f + 1) (.binary l op r) envA st =
        (.ok (.str (lv.displayIn st₂ ++ rv.displayIn st₂)), st₂)) ∧
    (¬ (lv.type = .typeNumber ∧ rv.type = .typeNumber) →
      ¬ (lv.type = .typeString ∨ rv.type = .typeString) →
      evalExpr (f + 1) (.binary l op r) envA st =
        (.error (.rte "+ operands must be numbers or strings"), st₂)) := by
  intro f l r op envA st st₁ st₂ lv rv hop hL hR
  refine ⟨?_, ?_, ?_⟩
  · intro a b ha hb
    subst ha; subst hb
    simp [evalExpr, hL, hR, hop, Value.type, Value.float]
  · intro hs
    have hnum : ¬ (lv.type = .typeNumber ∧ rv.type = .typeNumber) := by
      rcases hs with h | h <;> rintro ⟨h1, h2⟩ <;> simp_all
    simp [evalExpr, hL, hR, hop, hnum, hs]
  · intro hnum hs
    simp [evalExpr, hL, hR, hop, hnum, hs]

/-- C4 witness: `2 + 3 = 5`, `"a" + 1 = "a1"`, and `nil + true` is the
runtime error. -/
theorem c4_witness :
    evalExpr 2 (.binary (.literal (.lnum 2)) (wTok .plus "+") (.literal (.lnum 3)))
      0 wBase = (.ok (.num 5), wBase) ∧
    evalExpr 2 (.binary (.literal (.lstr "a")) (wTok .plus "+") (.literal (.lnum 1)))
      0 wBase = (.ok (.str "a1"), wBase) ∧
    evalExpr 2 (.binary (.literal .lnil) (wTok .plus "+") (.literal (.lbool true)))
      0 wBase = (.error (.rte "+ operands must be numbers or strings"), wBase) :=
  ⟨by
    have h := (c4_plus_semantics 1 (.literal (.lnum 2)) (.literal (.lnum 3)) (wTok .plus "+") 0
      wBase wBase wBase (.num 2) (.num 3) rfl rfl rfl).1 2 3 rfl rfl
    norm_num at h
    exact h,
   (c4_plus_semantics 1 (.literal (.lstr "a")) (.literal (.lnum 1)) (wTok .plus "+") 0
      wBase wBase wBase (.str "a") (.num 1) rfl rfl rfl).2.1 (Or.inl rfl),
   (c4_plus_semantics 1 (.literal .lnil) (.literal (.lbool true)) (wTok .plus "+") 0
      wBase wBase wBase .nil (.bool true) rfl rfl rfl).2.2
     (by simp [Value.type]) (by simp [Value.type])⟩

/-- C5: `or` returns the left operand's value itself, in the left
operand's post-state, when the left is truthy, and evaluates to exactly
the right operand's evaluation otherwise; `and` symmetrically.  The deciding
operand's value is returned unconverted, and the skipped operand leaves no
trace in the state. -/
theorem c5_logical_short_circuit : ∀ (f : Nat) (l r : Expr) (op : Token) (envA : Nat)
    (st st₁ : State) (v : Value),
    evalExpr f l envA st = (.ok v, st₁) →
    (op.ty = .orTok → v.toBool = true →
      evalExpr (f + 1) (.logical l op r) envA st = (.ok v, st₁)) ∧
    (op.ty = .orTok → v.toBool = false →
      evalExpr (f + 1) (.logical l op r) envA st = evalExpr f r envA st₁) ∧
    (op.ty = .andTok → v.toBool = false →
      evalExpr (f + 1) (.logical l op r) envA st = (.ok v, st₁)) ∧
    (op.ty = .andTok → v.toBool = true →
      evalExpr (f + 1) (.logical l op r) envA st = evalExpr f r envA st₁) := by
  intro f l r op envA st st₁ v hL
  refine ⟨?_, ?_, ?_, ?_⟩ <;> intro hop hv <;>
    simp only [evalExpr] <;> rw [hL] <;> simp [hop, hv]

/-- C5 witness: `true or false` yields the left `true` unchanged;
`false and false` yields the left `false` unchanged. -/
theorem c5_witness :
    evalExpr 2 (.logical (.literal (.lbool true)) (wTok .orTok "or")
      (.literal (.lbool false))) 0 wBase = (.ok (.bool true), wBase) ∧
    evalExpr 2 (.logical (.literal (.lbool false)) (wTok .andTok "and")
      (.literal (.lbool false))) 0 wBase = (.ok (.bool false), wBase) :=
  ⟨(c5_logical_short_circuit 1 (.literal (.lbool true)) (.literal (.lbool false))
      (wTok .orTok "or") 0 wBase wBase (.bool true) rfl).1 rfl rfl,
   (c5_logical_short_circuit 1 (.literal (.lbool false)) (.literal (.lbool false))
      (wTok .andTok "and") 0 wBase wBase (.bool false) rfl).2.2.1 rfl rfl⟩

/-- C6: a `Break` signal from the body is caught by the enclosing `While`,
which terminates with the normal (no-exception) outcome; a `Return` signal
propagates out of the `While` unchanged.  Neither becomes a
`RuntimeError`. -/
theorem c6_while_signals : ∀ (f : Nat) (c : Expr) (b : Stmt) (envA : Nat)
    (st st₁ : State) (v : Value),
    evalExpr f c envA st = (.ok v, st₁) →
    v.toBool = true →
    (∀ st₂, execStmt f b envA st₁ = (some .brk, st₂) →
      execStmt (f + 1) (.whileS c b) envA st = (none, st₂)) ∧
    (∀ rv st₂, execStmt f b envA st₁ = (some (.ret rv), st₂) →
      execStmt (f + 1) (.whileS c b) envA st = (some (.ret rv), st₂)) := by
  intro f c b envA st st₁ v hC hv
  constructor
  · intro st₂ hB
    simp [execStmt, hC, hv, hB]
  · intro rv st₂ hB
    simp [execStmt, hC, hv, hB]

/-- C6 witness: `while (true) break;` terminates normally;
`while (true) return;` propagates the return signal. -/
theorem c6_witness :
    execStmt 2 (.whileS (.literal (.lbool true)) .breakS) 0 wBase = (none, wBase) ∧
    execStmt 2 (.whileS (.literal (.lbool true))
      (.returnS (wTok .returnTok "return") none)) 0 wBase =
      (some (.ret .nil), wBase) :=
  ⟨(c6_while_signals 1 (.literal (.lbool true)) .breakS 0 wBase wBase (.bool true)
      rfl rfl).1 wBase rfl,
   (c6_while_signals 1 (.literal (.lbool true)) (.returnS (wTok .returnTok "return") none)
      0 wBase wBase (.bool true) rfl rfl).2 .nil wBase rfl⟩

/-- C7: Binary `/` on Number operands: divisor 0 yields the runtime error
"division by zero" and no value; a nonzero divisor yields the Number
quotient. -/
theorem c7_division_by_zero_guard : ∀ (f : Nat) (l r : Expr) (op : Token) (envA : Nat)
    (st st₁ st₂ : State) (a b : LoxNum),
    op.ty = .slash →
    evalExpr f l envA st = (.ok (.num a), st₁) →
    evalExpr f r envA st₁ = (.ok (.num b), st₂) →
    (b = 0 →
      evalExpr (f + 1) (.binary l op r) envA st =
        (.error (.rte "division by zero"), st₂)) ∧
    (b ≠ 0 →
      evalExpr (f + 1) (.binary l op r) envA st = (.ok (.num (a / b)), st₂)) := by
  intro f l r op envA st st₁ st₂ a b hop hL hR
  constructor <;> intro hb <;>
    simp [evalExpr, hL, hR, hop, Value.type, Value.float, hb]

/-- C7 witness: `1 / 0` is the runtime error; `6 / 3 = 2`. -/
theorem c7_witness :
    evalExpr 2 (.binary (.literal (.lnum 1)) (wTok .slash "/") (.literal (.lnum 0)))
      0 wBase = (.error (.rte "division by zero"), wBase) ∧
    evalExpr 2 (.binary (.literal (.lnum 6)) (wTok .slash "/") (.literal (.lnum 3)))
      0 wBase = (.ok (.num 2), wBase) :=
  ⟨(c7_division_by_zero_guard 1 (.literal (.lnum 1)) (.literal (.lnum 0)) (wTok .slash "/") 0
      wBase wBase wBase 1 0 rfl rfl rfl).1 rfl,
   by
    have h := (c7_division_by_zero_guard 1 (.literal (.lnum 6)) (.literal (.lnum 3))
      (wTok .slash "/") 0 wBase wBase wBase 6 3 rfl rfl rfl).2 (by norm_num)
    norm_num at h
    exact h⟩

/-- C8: (1) at every scope exit, `EndScope` pops the innermost scope and
reports exactly one error per entry whose usage count is zero and whose
name does not begin with an underscore; (2)/(3) resolving any statement
(or statement list) preserves the height of the scope stack — every
`BeginScope` inside is matched by an `EndScope` — so the synthetic global
scope the resolver starts with is never exited and its declarations are
never subjected to the check. -/
theorem c8_unused_locals_on_scope_exit :
    (∀ (r : Resolver) (top : Scope) (rest : List Scope),
      r.scopes = top :: rest →
      (r.endScope).scopes = rest ∧
      (r.endScope).errors = r.errors ++ top.filterMap (fun p =>
        if p.2.usages = 0 ∧ ¬ underscored p.1 then
          some (p.1 ++ " declared but not used") else none)) ∧
    (∀ (s : Stmt) (r : Resolver), (resolveStmt s r).scopes.length = r.scopes.length) ∧
    (∀ (l : List Stmt) (r : Resolver), (resolveStmts l r).scopes.length = r.scopes.length) := by
  refine ⟨?_, resolveStmt_scopes_length, resolveStmts_scopes_length⟩
  intro r top rest hsc
  constructor <;> simp [Resolver.endScope, hsc, unusedErrors]

/-- C8 witness: exiting a scope with unused "x", unused "_y" and used "z"
reports exactly the error for "x"; resolving a block preserves the scope
height of the fresh resolver. -/
theorem c8_witness :
    (Resolver.endScope ⟨[[("x", ⟨some (wTok .identifier "x"), 0, true⟩),
        ("_y", ⟨some (wTok .identifier "_y"), 0, true⟩),
        ("z", ⟨some (wTok .identifier "z"), 1, true⟩)], []], [], .fnNone⟩).scopes = [[]] ∧
    (Resolver.endScope ⟨[[("x", ⟨some (wTok .identifier "x"), 0, true⟩),
        ("_y", ⟨some (wTok .identifier "_y"), 0, true⟩),
        ("z", ⟨some (wTok .identifier "z"), 1, true⟩)], []], [], .fnNone⟩).errors =
      ["x declared but not used"] ∧
    (resolveStmt (.block [.breakS]) newResolver).scopes.length =
      newResolver.scopes.length :=
  ⟨(c8_unused_locals_on_scope_exit.1 _ _ _ rfl).1,
   (c8_unused_locals_on_scope_exit.1 ⟨[[("x", ⟨some (wTok .identifier "x"), 0, true⟩),
        ("_y", ⟨some (wTok .identifier "_y"), 0, true⟩),
        ("z", ⟨some (wTok .identifier "z"), 1, true⟩)], []], [], .fnNone⟩ _ _ rfl).2,
   c8_unused_locals_on_scope_exit.2.1 (.block [.breakS]) newResolver⟩

/-- C9: a comma expression evaluates the left operand first — an error
there propagates with the right operand untouched — and otherwise the
whole expression is exactly the evaluation of the right operand in the
left operand's post-state: the left value is discarded, its effects
precede the right's. -/
theorem c9_comma_semantics : ∀ (f : Nat) (a b : Expr) (op : Token) (envA : Nat) (st : State),
    op.ty = .comma →
    (∀ e st₁, evalExpr f a envA st = (.error e, st₁) →
      evalExpr (f + 1) (.binary a op b) envA st = (.error e, st₁)) ∧
    (∀ va st₁, evalExpr f a envA st = (.ok va, st₁) →
      evalExpr (f + 1) (.binary a op b) envA st = evalExpr f b envA st₁) := by
  intro f a b op envA st hop
  constructor
  · intro e st₁ hA
    simp only [evalExpr]
    rw [hA]
  · intro va st₁ hA
    simp only [evalExpr]
    rw [hA]
    cases hB : evalExpr f b envA st₁ with
    | mk rb st₂ =>
        cases rb with
        | ok vb => simp [hop, hB]
        | error e => simp [hop, hB]

/-- C9 witness: `(1, "a")` evaluates to exactly the evaluation of `"a"`. -/
theorem c9_witness :
    evalExpr 2 (.binary (.literal (.lnum 1)) (wTok .comma ",") (.literal (.lstr "a")))
      0 wBase = evalExpr 1 (.literal (.lstr "a")) 0 wBase :=
  ((c9_comma_semantics 1 (.literal (.lnum 1)) (.literal (.lstr "a")) (wTok .comma ",") 0 wBase
    rfl).2 (.num 1) wBase rfl)

/-- C10: a `Set` whose receiver is not an Instance errors before the value
expression is evaluated: the final state is exactly the state after the
receiver's own evaluation, so the value expression's effects never occur
and no field map is touched. -/
theorem c10_set_error_before_value : ∀ (f : Nat) (obj : Expr) (name : Token) (valueE : Expr)
    (envA : Nat) (st st₁ : State) (o : Value),
    evalExpr f obj envA st = (.ok o, st₁) →
    o.type ≠ .typeInstance →
    evalExpr (f + 1) (.setE obj name valueE) envA st =
      (.error (.rte "only instances have properties"), st₁) := by
  intro f obj name valueE envA st st₁ o hO ht
  simp only [evalExpr]
  rw [hO]
  simp [ht]

/-- C10 witness: `1.x = 9` errors with the state unchanged. -/
theorem c10_witness :
    evalExpr 2 (.setE (.literal (.lnum 1)) (wTok .identifier "x")
      (.literal (.lnum 9))) 0 wBase =
      (.error (.rte "only instances have properties"), wBase) :=
  c10_set_error_before_value 1 (.literal (.lnum 1)) (wTok .identifier "x") (.literal (.lnum 9)) 0
    wBase wBase (.num 1) rfl (by simp [Value.type])

end GoLox

